import Mathlib

/-!
Shallow embedding of the UNI-T UT32x frame-reassembly and packet-decoding
engine (src/hardware/uni-t-ut32x/protocol.c), together with theorems
settling the specification claims about it.

Bytes are modelled as natural numbers (their unsigned 8-bit values), the
frame buffer as a list of bytes, floats as exact rationals with `none`
standing for the NAN failure sentinel, and the session side effects
(sample accounting, record emission) as explicit return values.
-/

namespace UT32x

/-- First byte of the separator SEP = "\r\n": ASCII carriage return. -/
def SEP0 : Nat := 13

/-- Second byte of the separator SEP = "\r\n": ASCII line feed. -/
def SEP1 : Nat := 10

/-- BLANK placeholder byte ':' (ASCII 58). -/
def BLANK : Nat := 58

/-- Negative-sign marker byte NEG = ';' (ASCII 59). -/
def NEG : Nat := 59

/-- Modelled from the spec: PACKET_SIZE is declared in protocol.h, which is
not part of the provided sources; the spec fixes the maximum/expected frame
size at 19 bytes. -/
def PACKET_SIZE : Nat := 19

/-- The loop of `parse_temperature`: walks the field bytes left to right
carrying the sign flag `negative` and the accumulated value `temp`
(a C float, modelled as an exact rational).  Mirrors the loop body at
protocol.c lines 41-58 and the final division/negation at lines 59-61;
returning `none` models returning NAN. -/
def parseTempGo : List Nat → Bool → ℚ → Option ℚ
  | [], negative, temp => some (if negative then -(temp / 10) else temp / 10)
  | b :: rest, negative, temp =>
    if b = BLANK then parseTempGo rest negative temp
    else if b = NEG then
      if negative then none
      else parseTempGo rest true temp
    else if b < 48 ∨ 57 < b then none
    else parseTempGo rest negative (temp * 10 + ((b - 48 : ℕ) : ℚ))

/-- `parse_temperature` from protocol.c (lines 33-64): parse a
four-character buffer into deci-degrees; `none` models the NAN return. -/
def parse_temperature (buf : List Nat) : Option ℚ :=
  parseTempGo buf false 0

/-- Measurement unit selected by the digit at offset 5
(SR_UNIT_CELSIUS / FAHRENHEIT / KELVIN, or left unknown). -/
inductive TempUnit
  | unknown
  | celsius
  | fahrenheit
  | kelvin
  deriving DecidableEq, Repr

/-- Channel attribution selected by the digit at offset 13
(T1, T2, or the difference T1-T2). -/
inductive TempChannel
  | ch1
  | ch2
  | ch1MinusCh2
  deriving DecidableEq, Repr

/-- The measurement record handed to `sr_session_send`: the temperature
value, the unit, the channel, and whether SR_MQFLAG_RELATIVE was set. -/
structure MeasurementRecord where
  temp : ℚ
  unit : TempUnit
  channel : TempChannel
  relative : Bool
  deriving DecidableEq, Repr

/-- The unit `switch (pkt[5] - '0')` of protocol.c lines 105-118:
digit 1 is Celsius, 2 Fahrenheit, 3 Kelvin, anything else leaves the
unit unknown (non-fatal). -/
def decodeUnit (b : Nat) : TempUnit :=
  if b = 49 then .celsius
  else if b = 50 then .fahrenheit
  else if b = 51 then .kelvin
  else .unknown

/-- The channel `switch (pkt[13] - '0')` of protocol.c lines 119-137:
digit 0 is T1, 1 is T2, 2 or 3 the relative difference T1-T2; anything
else invalidates the record (`none`).  The Bool is the relative flag. -/
def decodeChannel (b : Nat) : Option (TempChannel × Bool) :=
  if b = 48 then some (.ch1, false)
  else if b = 49 then some (.ch2, false)
  else if b = 50 ∨ b = 51 then some (.ch1MinusCh2, true)
  else none

/-- The four-byte temperature field at offsets 1-4 of a packet
(`&pkt[1]` with the loop bound 4 in `parse_temperature`). -/
def tfield (pkt : List Nat) : List Nat :=
  (pkt.drop 1).take 4

/-- `pkt[1] == NEG && pkt[2] == NEG && pkt[3] == NEG && pkt[4] == NEG`
(protocol.c line 92): the "no measurement" placeholder test. -/
def allNegField (pkt : List Nat) : Bool :=
  pkt.getD 1 0 == NEG && pkt.getD 2 0 == NEG && pkt.getD 3 0 == NEG &&
    pkt.getD 4 0 == NEG

/-- `process_packet` from protocol.c (lines 66-157).  Returns the record
sent to the session (or `none` when nothing is emitted) together with the
amount added to the read-samples counter.  The three leading guards are
the early returns at lines 83-88, which skip the accounting at lines
153-156; once they pass, the counter is incremented by 1 regardless of
measurement validity. -/
def process_packet (pkt : List Nat) : Option MeasurementRecord × Nat :=
  if pkt.length ≠ PACKET_SIZE then (none, 0)
  else if pkt.getD 17 0 ≠ SEP0 ∨ pkt.getD 18 0 ≠ SEP1 then (none, 0)
  else if pkt.getD 8 0 ≠ 48 ∨ pkt.getD 16 0 ≠ 49 then (none, 0)
  else
    let tempRes := parse_temperature (tfield pkt)
    let isValid := !allNegField pkt && tempRes.isSome
    let record :=
      if isValid then
        match tempRes, decodeChannel (pkt.getD 13 0) with
        | some t, some (ch, rel) =>
            some { temp := t, unit := decodeUnit (pkt.getD 5 0),
                   channel := ch, relative := rel }
        | _, _ => none
      else none
    (record, 1)

/-- Per-device session state touched by the callback: the frame buffer
`devc->packet` (with its length) and the read-samples counter held in
`devc->limits`. -/
structure DevContext where
  packet : List Nat
  samplesRead : Nat
  deriving DecidableEq, Repr

/-- Termination test of protocol.c lines 174-176: buffer length at least 2
and the last two bytes equal to the separator. -/
def terminated (p : List Nat) : Bool :=
  decide (2 ≤ p.length) && p.getD (p.length - 2) 0 == SEP0 &&
    p.getD (p.length - 1) 0 == SEP1

/-- Overrun test of protocol.c line 180: buffer length strictly greater
than PACKET_SIZE. -/
def overrun (p : List Nat) : Bool :=
  decide (PACKET_SIZE < p.length)

/-- The append-and-detect step of `uni_t_ut32x_receive_transfer`
(protocol.c lines 171-186), given the payload bytes of one report:
append the chunk; if the buffer is terminated, or failing that has
overrun, decode it via `process_packet` and reset it to empty; otherwise
leave it to await more chunks.  Returns the new session state and the
record emitted (if any). -/
def on_chunk (devc : DevContext) (chunk : List Nat) :
    DevContext × Option MeasurementRecord :=
  let p := devc.packet ++ chunk
  if terminated p then
    ({ packet := [], samplesRead := devc.samplesRead + (process_packet p).2 },
     (process_packet p).1)
  else if overrun p then
    ({ packet := [], samplesRead := devc.samplesRead + (process_packet p).2 },
     (process_packet p).1)
  else
    ({ packet := p, samplesRead := devc.samplesRead }, none)

/-- `uni_t_ut32x_receive_transfer` (protocol.c lines 159-187) restricted
to its frame-processing effect: a transfer whose actual length is 8 has
its payload length read from the low nibble of byte 0 and payload bytes
1..len appended; any other length is ignored. -/
def uni_t_ut32x_receive_transfer (devc : DevContext) (report : List Nat) :
    DevContext × Option MeasurementRecord :=
  if report.length = 8 then
    on_chunk devc ((report.drop 1).take (report.getD 0 0 % 16))
  else
    (devc, none)

/-- The three structural guards of `process_packet` (length, separator
bytes at offsets 17-18, marker bytes at offsets 8 and 16) as one Bool. -/
def structuralOk (pkt : List Nat) : Bool :=
  pkt.length == PACKET_SIZE && pkt.getD 17 0 == SEP0 &&
    pkt.getD 18 0 == SEP1 && pkt.getD 8 0 == 48 && pkt.getD 16 0 == 49

/-! ### Spec-side characterisation of the temperature field

These definitions follow the specification's description of the field
("digits, blank placeholders, at most one sign marker; magnitude
accumulates as magnitude * 10 + digit value; final value is the signed
magnitude in tenths") and are compared against `parse_temperature`. -/

/-- Spec-side: a temperature-field byte is an ASCII digit, the blank
placeholder, or the negative-sign marker. -/
def specFieldByteOK (b : Nat) : Prop :=
  (48 ≤ b ∧ b ≤ 57) ∨ b = BLANK ∨ b = NEG

instance : DecidablePred specFieldByteOK := fun b =>
  inferInstanceAs (Decidable ((48 ≤ b ∧ b ≤ 57) ∨ b = BLANK ∨ b = NEG))

/-- Spec-side: a well-formed field contains only digits, blanks and sign
markers, with at most one sign marker. -/
def specWellFormed (field : List Nat) : Prop :=
  (∀ b ∈ field, specFieldByteOK b) ∧ field.count NEG ≤ 1

instance (field : List Nat) : Decidable (specWellFormed field) :=
  inferInstanceAs
    (Decidable ((∀ b ∈ field, specFieldByteOK b) ∧ field.count NEG ≤ 1))

/-- Spec-side: the decimal magnitude accumulated left to right over the
digit bytes of the field; non-digit bytes contribute nothing. -/
def specMagnitude (m : Nat) : List Nat → Nat
  | [] => m
  | b :: rest =>
    if 48 ≤ b ∧ b ≤ 57 then specMagnitude (m * 10 + (b - 48)) rest
    else specMagnitude m rest

/-- Spec-side: the signed value encoded by a field, in tenths of a unit. -/
def specValue (field : List Nat) : ℚ :=
  (if NEG ∈ field then -((specMagnitude 0 field : Nat) : ℚ)
   else ((specMagnitude 0 field : Nat) : ℚ)) / 10

/-- Rational-accumulator analog of `specMagnitude`, matching the
accumulation performed inside `parseTempGo`. -/
def magFromQ (t : ℚ) : List Nat → ℚ
  | [] => t
  | b :: rest =>
    if 48 ≤ b ∧ b ≤ 57 then magFromQ (t * 10 + ((b - 48 : ℕ) : ℚ)) rest
    else magFromQ t rest

lemma magFromQ_natCast (field : List Nat) : ∀ t : Nat,
    magFromQ (t : ℚ) field = ((specMagnitude t field : Nat) : ℚ) := by
  induction field with
  | nil => intro t; simp [magFromQ, specMagnitude]
  | cons b rest ih =>
    intro t
    by_cases hb : 48 ≤ b ∧ b ≤ 57
    · have hcast : (t : ℚ) * 10 + ((b - 48 : ℕ) : ℚ) =
          ((t * 10 + (b - 48) : Nat) : ℚ) := by push_cast; ring
      simp only [magFromQ, specMagnitude, if_pos hb, hcast]
      exact ih (t * 10 + (b - 48))
    · simp only [magFromQ, specMagnitude, if_neg hb]
      exact ih t

/-- The parser loop on a field of digits, blanks and at most one
remaining sign marker yields exactly the accumulated signed value in
tenths. -/
lemma parseTempGo_wf (field : List Nat) : ∀ (neg : Bool) (t : ℚ),
    (∀ b ∈ field, specFieldByteOK b) →
    field.count NEG + (if neg then 1 else 0) ≤ 1 →
    parseTempGo field neg t =
      some ((if neg = true ∨ NEG ∈ field then -(magFromQ t field)
             else magFromQ t field) / 10) := by
  induction field with
  | nil =>
    intro neg t _ _
    cases neg <;> simp [parseTempGo, magFromQ, neg_div]
  | cons b rest ih =>
    intro neg t hmem hcount
    have hb := hmem b (List.mem_cons_self b rest)
    have hmem' : ∀ x ∈ rest, specFieldByteOK x :=
      fun x hx => hmem x (List.mem_cons_of_mem b hx)
    by_cases hBL : b = BLANK
    · subst hBL
      have hcount' : rest.count NEG + (if neg then 1 else 0) ≤ 1 := by
        simpa [List.count_cons, BLANK, NEG] using hcount
      simp only [parseTempGo, BLANK, NEG, if_pos rfl]
      rw [ih neg t hmem' hcount']
      simp [magFromQ, BLANK, NEG, List.mem_cons]
    · by_cases hNG : b = NEG
      · subst hNG
        cases neg with
        | true =>
          exfalso
          simp [List.count_cons] at hcount
        | false =>
          have hcount' : rest.count NEG + 1 ≤ 1 := by
            simpa [List.count_cons] using hcount
          simp only [parseTempGo, NEG, BLANK, if_neg (by decide : ¬(59 : Nat) = 58),
            if_pos rfl, Bool.false_eq_true, if_false]
          rw [ih true t hmem' (by simpa using hcount')]
          simp [magFromQ, NEG, List.mem_cons]
      · have hdig : 48 ≤ b ∧ b ≤ 57 := by
          rcases hb with h | h | h
          · exact h
          · exact absurd h hBL
          · exact absurd h hNG
        have hnlt : ¬(b < 48 ∨ 57 < b) := by omega
        have hcount' : rest.count NEG + (if neg then 1 else 0) ≤ 1 := by
          simpa [List.count_cons, hNG] using hcount
        have hNG' : ¬NEG = b := fun h => hNG h.symm
        simp only [parseTempGo, if_neg hBL, if_neg hNG, if_neg hnlt]
        rw [ih neg (t * 10 + ((b - 48 : ℕ) : ℚ)) hmem' hcount']
        simp [magFromQ, if_pos hdig, List.mem_cons, hNG']

/-- The parser loop fails whenever two or more sign markers remain to be
consumed (counting one already seen). -/
lemma parseTempGo_double (field : List Nat) : ∀ (neg : Bool) (t : ℚ),
    2 ≤ field.count NEG + (if neg then 1 else 0) →
    parseTempGo field neg t = none := by
  induction field with
  | nil =>
    intro neg t h
    exfalso; cases neg <;> simp_all
  | cons b rest ih =>
    intro neg t h
    by_cases hBL : b = BLANK
    · subst hBL
      have h' : 2 ≤ rest.count NEG + (if neg then 1 else 0) := by
        simpa [List.count_cons, BLANK, NEG] using h
      simp only [parseTempGo, BLANK, if_pos rfl]
      exact ih neg t h'
    · by_cases hNG : b = NEG
      · subst hNG
        cases neg with
        | true =>
          simp [parseTempGo, NEG, BLANK]
        | false =>
          have h' : 2 ≤ rest.count NEG + 1 := by
            simpa [List.count_cons] using h
          simp only [parseTempGo, NEG, BLANK,
            if_neg (by decide : ¬(59 : Nat) = 58), if_pos rfl,
            Bool.false_eq_true, if_false]
          exact ih true t (by simpa using h')
      · by_cases hd : b < 48 ∨ 57 < b
        · simp [parseTempGo, hBL, hNG, hd]
        · have h' : 2 ≤ rest.count NEG + (if neg then 1 else 0) := by
            simpa [List.count_cons, hNG] using h
          simp only [parseTempGo, if_neg hBL, if_neg hNG, if_neg hd]
          exact ih neg _ h'

/-- `parse_temperature` on a well-formed field yields exactly the
spec-encoded signed value. -/
lemma parse_temperature_wf (field : List Nat) (h : specWellFormed field) :
    parse_temperature field = some (specValue field) := by
  obtain ⟨h1, h2⟩ := h
  rw [parse_temperature, parseTempGo_wf field false 0 h1 (by simpa using h2)]
  have hmag : magFromQ (0 : ℚ) field = ((specMagnitude 0 field : Nat) : ℚ) := by
    simpa using magFromQ_natCast field 0
  simp [specValue, hmag, neg_div]

/-- `parse_temperature` on a field with two or more sign markers fails. -/
lemma parse_temperature_double (field : List Nat) (h : 2 ≤ field.count NEG) :
    parse_temperature field = none := by
  rw [parse_temperature]
  exact parseTempGo_double field false 0 (by simpa using h)

/-! ### Structural helper lemmas -/

/-- On a buffer of length at least 5 the temperature field is exactly the
four bytes at offsets 1-4. -/
lemma tfield_eq (pkt : List Nat) (h : 5 ≤ pkt.length) :
    tfield pkt = [pkt.getD 1 0, pkt.getD 2 0, pkt.getD 3 0, pkt.getD 4 0] := by
  rcases pkt with _ | ⟨a, _ | ⟨b, _ | ⟨c, _ | ⟨d, _ | ⟨e, rest⟩⟩⟩⟩⟩ <;>
    simp_all [tfield, List.getD]

/-- An all-sign-marker field makes `parse_temperature` fail (the second
marker trips the double-negative check). -/
lemma allNeg_parse_none (pkt : List Nat) (hlen : 5 ≤ pkt.length)
    (h : allNegField pkt = true) :
    parse_temperature (tfield pkt) = none := by
  rw [tfield_eq pkt hlen]
  simp only [allNegField, Bool.and_eq_true, beq_iff_eq] at h
  obtain ⟨⟨⟨h1, h2⟩, h3⟩, h4⟩ := h
  rw [h1, h2, h3, h4]
  decide

/-- Conversely, a successful parse means the field was not the
all-sign-marker placeholder. -/
lemma parse_some_not_allNeg (pkt : List Nat) (hlen : 5 ≤ pkt.length)
    (h : (parse_temperature (tfield pkt)).isSome = true) :
    allNegField pkt = false := by
  by_contra hc
  have : allNegField pkt = true := by
    cases hx : allNegField pkt
    · exact absurd hx hc
    · rfl
  rw [allNeg_parse_none pkt hlen this] at h
  simp at h

/-- Unfolding of `process_packet` once the three structural guards
(length, separator bytes, marker bytes) are known to pass. -/
lemma process_packet_eq (pkt : List Nat) (hlen : pkt.length = PACKET_SIZE)
    (h17 : pkt.getD 17 0 = SEP0) (h18 : pkt.getD 18 0 = SEP1)
    (h8 : pkt.getD 8 0 = 48) (h16 : pkt.getD 16 0 = 49) :
    process_packet pkt =
      ((if !allNegField pkt && (parse_temperature (tfield pkt)).isSome then
          match parse_temperature (tfield pkt), decodeChannel (pkt.getD 13 0) with
          | some t, some (ch, rel) =>
              some { temp := t, unit := decodeUnit (pkt.getD 5 0),
                     channel := ch, relative := rel }
          | _, _ => none
        else none), 1) := by
  have c1 : ¬pkt.length ≠ PACKET_SIZE := fun hc => hc hlen
  have c2 : ¬(pkt.getD 17 0 ≠ SEP0 ∨ pkt.getD 18 0 ≠ SEP1) :=
    fun hc => hc.elim (fun hne => hne h17) (fun hne => hne h18)
  have c3 : ¬(pkt.getD 8 0 ≠ 48 ∨ pkt.getD 16 0 ≠ 49) :=
    fun hc => hc.elim (fun hne => hne h8) (fun hne => hne h16)
  simp only [process_packet, if_neg c1, if_neg c2, if_neg c3]

/-- A buffer of the wrong length is rejected by the first guard, with no
record and no accounting. -/
lemma process_packet_wrong_length (pkt : List Nat)
    (h : pkt.length ≠ PACKET_SIZE) : process_packet pkt = (none, 0) := by
  simp [process_packet, h]

/-- Full characterisation of the append-and-detect step: decode and reset
exactly when the grown buffer is terminated or has overrun, otherwise
keep accumulating. -/
lemma on_chunk_eq (devc : DevContext) (chunk : List Nat) :
    on_chunk devc chunk =
      if (terminated (devc.packet ++ chunk) ||
          overrun (devc.packet ++ chunk)) = true then
        ({ packet := [],
           samplesRead :=
             devc.samplesRead + (process_packet (devc.packet ++ chunk)).2 },
         (process_packet (devc.packet ++ chunk)).1)
      else
        ({ packet := devc.packet ++ chunk,
           samplesRead := devc.samplesRead }, none) := by
  cases hterm : terminated (devc.packet ++ chunk) <;>
    cases hov : overrun (devc.packet ++ chunk) <;>
      simp [on_chunk, hterm, hov]

/-- The accounting side effect of `process_packet` is 1 exactly when the
three structural guards pass. -/
lemma process_packet_snd_eq_one_iff (pkt : List Nat) :
    (process_packet pkt).2 = 1 ↔
      (pkt.length = PACKET_SIZE ∧ pkt.getD 17 0 = SEP0 ∧
       pkt.getD 18 0 = SEP1 ∧ pkt.getD 8 0 = 48 ∧ pkt.getD 16 0 = 49) := by
  simp only [process_packet]
  split_ifs with h1 h2 h3 h4
  · exact ⟨fun hc => absurd hc (by decide), fun hc => absurd hc.1 h1⟩
  · refine ⟨fun hc => absurd hc (by decide), fun hc => ?_⟩
    rcases h2 with h | h
    · exact absurd hc.2.1 h
    · exact absurd hc.2.2.1 h
  · refine ⟨fun hc => absurd hc (by decide), fun hc => ?_⟩
    rcases h3 with h | h
    · exact absurd hc.2.2.2.1 h
    · exact absurd hc.2.2.2.2 h
  · push_neg at h1 h2 h3
    exact ⟨fun _ => ⟨h1, h2.1, h2.2, h3.1, h3.2⟩, fun _ => rfl⟩
  · push_neg at h1 h2 h3
    exact ⟨fun _ => ⟨h1, h2.1, h2.2, h3.1, h3.2⟩, fun _ => rfl⟩

/-- A unit byte that is not the digit 1, 2 or 3 leaves the unit unknown. -/
lemma decodeUnit_unknown (b : Nat) (h : b ∉ ([49, 50, 51] : List Nat)) :
    decodeUnit b = TempUnit.unknown := by
  simp only [List.mem_cons, List.not_mem_nil, or_false, not_or] at h
  simp [decodeUnit, h.1, h.2.1, h.2.2]

/-- The accounting increment is never more than 1 per processed frame. -/
lemma process_packet_snd_le_one (pkt : List Nat) :
    (process_packet pkt).2 ≤ 1 := by
  simp only [process_packet]
  split_ifs <;> simp

/-- The record emitted by a step and the resulting buffer do not depend
on the current value of the sample counter. -/
lemma on_chunk_congr (s s' : Nat) (p B : List Nat) :
    (on_chunk ⟨p, s⟩ B).2 = (on_chunk ⟨p, s'⟩ B).2 ∧
    (on_chunk ⟨p, s⟩ B).1.packet = (on_chunk ⟨p, s'⟩ B).1.packet := by
  cases hterm : terminated (p ++ B) <;> cases hov : overrun (p ++ B) <;>
    simp [on_chunk, hterm, hov]

/-! ### Claim theorems -/

/-- Claim C1 counterexample: a 20-byte buffer of ASCII zeroes reaches the
Frame Detector's decode trigger by overrun (the buffer is decoded and
reset to empty), yet the session sample counter is not incremented: it
stays 0 instead of becoming 1, because `process_packet` returns at its
length check before the accounting code runs. -/
theorem c1_counterexample_unaccounted_frame :
    overrun ((⟨List.replicate 13 48, 0⟩ : DevContext).packet ++
        List.replicate 7 48) = true ∧
    terminated ((⟨List.replicate 13 48, 0⟩ : DevContext).packet ++
        List.replicate 7 48) = false ∧
    (on_chunk ⟨List.replicate 13 48, 0⟩ (List.replicate 7 48)).1.packet = [] ∧
    (on_chunk ⟨List.replicate 13 48, 0⟩
        (List.replicate 7 48)).1.samplesRead = 0 := by
  decide

/-- Claim C1 (amended): for every frame that reaches the Frame Detector's
decode trigger, the sample counter is incremented by the accounting
amount of `process_packet`, and that amount is exactly 1 precisely when
the frame passes the Packet Decoder's length, separator and
structural-marker checks — independent of the measurement outcome — and
is 0 otherwise (never more than 1). -/
theorem c1_amended_accounting_iff_structural (devc : DevContext)
    (chunk : List Nat)
    (htrig : (terminated (devc.packet ++ chunk) ||
        overrun (devc.packet ++ chunk)) = true) :
    (on_chunk devc chunk).1.samplesRead =
      devc.samplesRead + (process_packet (devc.packet ++ chunk)).2 ∧
    ((process_packet (devc.packet ++ chunk)).2 = 1 ↔
      ((devc.packet ++ chunk).length = PACKET_SIZE ∧
       (devc.packet ++ chunk).getD 17 0 = SEP0 ∧
       (devc.packet ++ chunk).getD 18 0 = SEP1 ∧
       (devc.packet ++ chunk).getD 8 0 = 48 ∧
       (devc.packet ++ chunk).getD 16 0 = 49)) ∧
    (process_packet (devc.packet ++ chunk)).2 ≤ 1 := by
  refine ⟨?_, process_packet_snd_eq_one_iff _, process_packet_snd_le_one _⟩
  rw [on_chunk_eq, if_pos htrig]

/-- Witness for the amended Claim C1 at a concrete terminated frame. -/
theorem c1_amended_witness :
    (terminated ((⟨[], 0⟩ : DevContext).packet ++ [13, 10]) ||
        overrun ((⟨[], 0⟩ : DevContext).packet ++ [13, 10])) = true ∧
    ((on_chunk ⟨[], 0⟩ [13, 10]).1.samplesRead =
        (⟨[], 0⟩ : DevContext).samplesRead +
          (process_packet ((⟨[], 0⟩ : DevContext).packet ++ [13, 10])).2 ∧
      ((process_packet ((⟨[], 0⟩ : DevContext).packet ++ [13, 10])).2 = 1 ↔
        (((⟨[], 0⟩ : DevContext).packet ++ [13, 10] : List Nat).length =
            PACKET_SIZE ∧
         ((⟨[], 0⟩ : DevContext).packet ++ [13, 10] : List Nat).getD 17 0 =
            SEP0 ∧
         ((⟨[], 0⟩ : DevContext).packet ++ [13, 10] : List Nat).getD 18 0 =
            SEP1 ∧
         ((⟨[], 0⟩ : DevContext).packet ++ [13, 10] : List Nat).getD 8 0 =
            48 ∧
         ((⟨[], 0⟩ : DevContext).packet ++ [13, 10] : List Nat).getD 16 0 =
            49)) ∧
      (process_packet ((⟨[], 0⟩ : DevContext).packet ++ [13, 10])).2 ≤ 1) :=
  ⟨by decide, c1_amended_accounting_iff_structural ⟨[], 0⟩ [13, 10] (by decide)⟩

/-- Claim C2: for every frame whose length is not exactly 19 bytes,
decode yields no measurement record and the only effect on the frame
buffer is that it is reset to empty. -/
theorem c2_wrong_length_no_record_buffer_reset (devc : DevContext)
    (chunk : List Nat)
    (htrig : (terminated (devc.packet ++ chunk) ||
        overrun (devc.packet ++ chunk)) = true)
    (hlen : (devc.packet ++ chunk).length ≠ PACKET_SIZE) :
    (on_chunk devc chunk).2 = none ∧
    (on_chunk devc chunk).1.packet = [] := by
  rw [on_chunk_eq, if_pos htrig, process_packet_wrong_length _ hlen]
  exact ⟨rfl, rfl⟩

/-- Witness for Claim C2 at a concrete 2-byte terminated frame. -/
theorem c2_witness :
    (terminated ((⟨[], 0⟩ : DevContext).packet ++ [13, 10]) ||
        overrun ((⟨[], 0⟩ : DevContext).packet ++ [13, 10])) = true ∧
    ((⟨[], 0⟩ : DevContext).packet ++ [13, 10] : List Nat).length ≠
      PACKET_SIZE ∧
    ((on_chunk ⟨[], 0⟩ [13, 10]).2 = none ∧
      (on_chunk ⟨[], 0⟩ [13, 10]).1.packet = []) :=
  ⟨by decide, by decide,
    c2_wrong_length_no_record_buffer_reset ⟨[], 0⟩ [13, 10]
      (by decide) (by decide)⟩

/-- Claim C5: after every append of a chunk, the Frame Detector decodes
the grown buffer and resets it to empty exactly when the buffer is
terminated (length at least 2 with the last two bytes CR LF) or, failing
that, has overrun (length greater than 19); an overrun buffer is decoded
rather than silently dropped, and a buffer that is neither terminated nor
overrun is left untouched to await further chunks. -/
theorem c5_frame_detector_characterisation (devc : DevContext)
    (chunk : List Nat) :
    on_chunk devc chunk =
      if (terminated (devc.packet ++ chunk) ||
          overrun (devc.packet ++ chunk)) = true then
        ({ packet := [],
           samplesRead :=
             devc.samplesRead + (process_packet (devc.packet ++ chunk)).2 },
         (process_packet (devc.packet ++ chunk)).1)
      else
        ({ packet := devc.packet ++ chunk,
           samplesRead := devc.samplesRead }, none) :=
  on_chunk_eq devc chunk

/-- Claim C7: a structurally valid 19-byte frame whose field bytes at
offsets 1-4 are all the negative-sign marker is the "no measurement"
placeholder: no record is emitted, yet the sample counter is still
incremented by 1. -/
theorem c7_all_neg_placeholder_counted (pkt : List Nat)
    (hlen : pkt.length = PACKET_SIZE)
    (h17 : pkt.getD 17 0 = SEP0) (h18 : pkt.getD 18 0 = SEP1)
    (h8 : pkt.getD 8 0 = 48) (h16 : pkt.getD 16 0 = 49)
    (hneg : allNegField pkt = true) :
    process_packet pkt = (none, 1) := by
  rw [process_packet_eq pkt hlen h17 h18 h8 h16]
  simp [hneg]

/-- Witness for Claim C7 at a concrete all-marker frame. -/
theorem c7_witness :
    allNegField
        [48, 59, 59, 59, 59, 49, 48, 48, 48, 48, 48, 48, 48, 48, 48, 48,
         49, 13, 10] = true ∧
    process_packet
        [48, 59, 59, 59, 59, 49, 48, 48, 48, 48, 48, 48, 48, 48, 48, 48,
         49, 13, 10] = (none, 1) :=
  ⟨by decide,
    c7_all_neg_placeholder_counted _ (by decide) (by decide) (by decide)
      (by decide) (by decide) (by decide)⟩

/-- Claim C9: every frame decoded via the overrun path (buffer longer
than 19 bytes and not terminated) yields no measurement record and does
not increment the sample counter, since the length check of
`process_packet` fails before emission or accounting. -/
theorem c9_overrun_no_record_no_count (devc : DevContext) (chunk : List Nat)
    (_hterm : terminated (devc.packet ++ chunk) = false)
    (hover : overrun (devc.packet ++ chunk) = true) :
    (on_chunk devc chunk).2 = none ∧
    (on_chunk devc chunk).1.samplesRead = devc.samplesRead := by
  have hlt : PACKET_SIZE < (devc.packet ++ chunk).length := by
    simpa [overrun] using hover
  have hlen : (devc.packet ++ chunk).length ≠ PACKET_SIZE :=
    (Nat.ne_of_lt hlt).symm
  rw [on_chunk_eq, if_pos (by simp [hover]),
    process_packet_wrong_length _ hlen]
  exact ⟨rfl, rfl⟩

/-- Witness for Claim C9 at a concrete 20-byte overrun buffer. -/
theorem c9_witness :
    terminated ((⟨List.replicate 13 48, 0⟩ : DevContext).packet ++
        List.replicate 7 48) = false ∧
    overrun ((⟨List.replicate 13 48, 0⟩ : DevContext).packet ++
        List.replicate 7 48) = true ∧
    ((on_chunk ⟨List.replicate 13 48, 0⟩ (List.replicate 7 48)).2 = none ∧
      (on_chunk ⟨List.replicate 13 48, 0⟩
          (List.replicate 7 48)).1.samplesRead =
        (⟨List.replicate 13 48, 0⟩ : DevContext).samplesRead) :=
  ⟨by decide, by decide,
    c9_overrun_no_record_no_count ⟨List.replicate 13 48, 0⟩
      (List.replicate 7 48) (by decide) (by decide)⟩

/-- Claim C3: for every structurally valid 19-byte frame whose 4-byte
temperature field at offsets 1-4 is well-formed (digits, at most one sign
marker, blanks allowed) and whose channel digit is decodable, the decoded
record's temperature equals exactly the signed decimal magnitude encoded
by the field divided by 10. -/
theorem c3_wellformed_temperature_exact (pkt : List Nat)
    (hlen : pkt.length = PACKET_SIZE)
    (h17 : pkt.getD 17 0 = SEP0) (h18 : pkt.getD 18 0 = SEP1)
    (h8 : pkt.getD 8 0 = 48) (h16 : pkt.getD 16 0 = 49)
    (hwf : specWellFormed (tfield pkt))
    (hch : (decodeChannel (pkt.getD 13 0)).isSome = true) :
    ∃ r, (process_packet pkt).1 = some r ∧
      r.temp = specValue (tfield pkt) := by
  have hparse := parse_temperature_wf _ hwf
  have h5 : 5 ≤ pkt.length := by rw [hlen]; decide
  have hnneg : allNegField pkt = false :=
    parse_some_not_allNeg pkt h5 (by rw [hparse]; rfl)
  obtain ⟨cr, hcr⟩ := Option.isSome_iff_exists.mp hch
  obtain ⟨ch, rel⟩ := cr
  have hrec : (process_packet pkt).1 =
      some ⟨specValue (tfield pkt), decodeUnit (pkt.getD 5 0), ch, rel⟩ := by
    rw [process_packet_eq pkt hlen h17 h18 h8 h16, hparse, hnneg, hcr]
    simp
  exact ⟨_, hrec, rfl⟩

/-- Witness for Claim C3 at a concrete frame whose field ";075" encodes
minus 7.5. -/
theorem c3_witness :
    specWellFormed (tfield
        [48, 59, 48, 55, 53, 49, 48, 48, 48, 48, 48, 48, 48, 48, 48, 48,
         49, 13, 10]) ∧
    ∃ r, (process_packet
        [48, 59, 48, 55, 53, 49, 48, 48, 48, 48, 48, 48, 48, 48, 48, 48,
         49, 13, 10]).1 = some r ∧
      r.temp = specValue (tfield
        [48, 59, 48, 55, 53, 49, 48, 48, 48, 48, 48, 48, 48, 48, 48, 48,
         49, 13, 10]) :=
  ⟨by decide,
    c3_wellformed_temperature_exact _ (by decide) (by decide) (by decide)
      (by decide) (by decide) (by decide) (by decide)⟩

/-- Claim C4: a 4-byte temperature field containing two or more
negative-sign markers always parses to the distinguishable invalid
result (`none`, the NAN sentinel) — never a crash, a wrapped or garbage
number, or zero. -/
theorem c4_double_negative_invalid (field : List Nat)
    (_hlen : field.length = 4) (h : 2 ≤ field.count NEG) :
    parse_temperature field = none :=
  parse_temperature_double field h

/-- Witness for Claim C4 at the concrete field ";;12". -/
theorem c4_witness :
    List.length [59, 59, 49, 50] = 4 ∧
    2 ≤ List.count NEG [59, 59, 49, 50] ∧
    parse_temperature [59, 59, 49, 50] = none :=
  ⟨by decide, by decide,
    c4_double_negative_invalid [59, 59, 49, 50] (by decide) (by decide)⟩

/-- Claim C6: decoding never mutates the frame buffer and the buffer is
reset to empty after every decode regardless of outcome, so no bytes are
retained across a decode-and-reset cycle: after feeding bytes A and
triggering a decode, feeding bytes B produces exactly the record and
buffer that B alone would produce from an empty buffer. -/
theorem c6_no_retention_across_cycle (devc : DevContext) (A B : List Nat)
    (htrig : (terminated (devc.packet ++ A) ||
        overrun (devc.packet ++ A)) = true) :
    (on_chunk devc A).1.packet = [] ∧
    (on_chunk (on_chunk devc A).1 B).2 = (on_chunk ⟨[], 0⟩ B).2 ∧
    (on_chunk (on_chunk devc A).1 B).1.packet =
      (on_chunk ⟨[], 0⟩ B).1.packet := by
  have h1 : (on_chunk devc A).1 =
      ⟨[], devc.samplesRead + (process_packet (devc.packet ++ A)).2⟩ := by
    rw [on_chunk_eq, if_pos htrig]
  refine ⟨by rw [h1], ?_, ?_⟩
  · rw [h1]
    exact (on_chunk_congr _ 0 [] B).1
  · rw [h1]
    exact (on_chunk_congr _ 0 [] B).2

/-- Witness for Claim C6: a terminated frame A, then a one-byte B. -/
theorem c6_witness :
    (terminated ((⟨[], 0⟩ : DevContext).packet ++ [13, 10]) ||
        overrun ((⟨[], 0⟩ : DevContext).packet ++ [13, 10])) = true ∧
    ((on_chunk ⟨[], 0⟩ [13, 10]).1.packet = [] ∧
      (on_chunk (on_chunk ⟨[], 0⟩ [13, 10]).1 [65]).2 =
        (on_chunk ⟨[], 0⟩ [65]).2 ∧
      (on_chunk (on_chunk ⟨[], 0⟩ [13, 10]).1 [65]).1.packet =
        (on_chunk ⟨[], 0⟩ [65]).1.packet) :=
  ⟨by decide,
    c6_no_retention_across_cycle ⟨[], 0⟩ [13, 10] [65] (by decide)⟩

/-- Claim C10: the all-blank field "::::" parses to the valid value 0
(not the invalid sentinel), so an otherwise-valid frame carrying it is
emitted as a zero-temperature measurement. -/
theorem c10_all_blank_zero (pkt : List Nat)
    (hlen : pkt.length = PACKET_SIZE)
    (h17 : pkt.getD 17 0 = SEP0) (h18 : pkt.getD 18 0 = SEP1)
    (h8 : pkt.getD 8 0 = 48) (h16 : pkt.getD 16 0 = 49)
    (hfield : tfield pkt = [BLANK, BLANK, BLANK, BLANK])
    (hch : (decodeChannel (pkt.getD 13 0)).isSome = true) :
    parse_temperature (tfield pkt) = some 0 ∧
    ∃ r, (process_packet pkt).1 = some r ∧ r.temp = 0 := by
  have hparse : parse_temperature (tfield pkt) = some 0 := by
    rw [hfield]
    norm_num [parse_temperature, parseTempGo, BLANK, NEG]
  have h5 : 5 ≤ pkt.length := by rw [hlen]; decide
  have hnneg : allNegField pkt = false :=
    parse_some_not_allNeg pkt h5 (by rw [hparse]; rfl)
  obtain ⟨cr, hcr⟩ := Option.isSome_iff_exists.mp hch
  obtain ⟨ch, rel⟩ := cr
  refine ⟨hparse, ?_⟩
  have hrec : (process_packet pkt).1 =
      some ⟨0, decodeUnit (pkt.getD 5 0), ch, rel⟩ := by
    rw [process_packet_eq pkt hlen h17 h18 h8 h16, hparse, hnneg, hcr]
    simp
  exact ⟨_, hrec, rfl⟩

/-- Witness for Claim C10 at a concrete frame with an all-blank field. -/
theorem c10_witness :
    tfield [48, 58, 58, 58, 58, 49, 48, 48, 48, 48, 48, 48, 48, 48, 48,
        48, 49, 13, 10] = [BLANK, BLANK, BLANK, BLANK] ∧
    (parse_temperature (tfield
        [48, 58, 58, 58, 58, 49, 48, 48, 48, 48, 48, 48, 48, 48, 48, 48,
         49, 13, 10]) = some 0 ∧
      ∃ r, (process_packet
          [48, 58, 58, 58, 58, 49, 48, 48, 48, 48, 48, 48, 48, 48, 48, 48,
           49, 13, 10]).1 = some r ∧ r.temp = 0) :=
  ⟨by decide,
    c10_all_blank_zero _ (by decide) (by decide) (by decide) (by decide)
      (by decide) (by decide) (by decide)⟩

/-- Claim C8: on an otherwise-valid 19-byte frame (structural checks
pass, temperature parses, field is not the all-marker placeholder), an
out-of-range unit digit at offset 5 is non-fatal — the unit is left
unknown and a record is still emitted — whereas an out-of-range channel
digit at offset 13 is fatal for the record — nothing is emitted; channel
digits 2 and 3 select the channel difference and set the relative flag. -/
theorem c8_unit_nonfatal_channel_fatal (pkt : List Nat)
    (hlen : pkt.length = PACKET_SIZE)
    (h17 : pkt.getD 17 0 = SEP0) (h18 : pkt.getD 18 0 = SEP1)
    (h8 : pkt.getD 8 0 = 48) (h16 : pkt.getD 16 0 = 49)
    (t : ℚ) (htemp : parse_temperature (tfield pkt) = some t) :
    (pkt.getD 13 0 ∉ ([48, 49, 50, 51] : List Nat) →
      (process_packet pkt).1 = none) ∧
    (pkt.getD 13 0 ∈ ([48, 49, 50, 51] : List Nat) →
      ∃ r, (process_packet pkt).1 = some r ∧ r.temp = t ∧
        (pkt.getD 5 0 ∉ ([49, 50, 51] : List Nat) →
          r.unit = TempUnit.unknown) ∧
        ((pkt.getD 13 0 = 50 ∨ pkt.getD 13 0 = 51) →
          r.channel = TempChannel.ch1MinusCh2 ∧ r.relative = true)) := by
  have h5 : 5 ≤ pkt.length := by rw [hlen]; decide
  have hnneg : allNegField pkt = false :=
    parse_some_not_allNeg pkt h5 (by rw [htemp]; rfl)
  constructor
  · intro hnotin
    simp only [List.mem_cons, List.not_mem_nil, or_false, not_or] at hnotin
    obtain ⟨n48, n49, n50, n51⟩ := hnotin
    have hch : decodeChannel (pkt.getD 13 0) = none := by
      simp only [decodeChannel]
      rw [if_neg n48, if_neg n49, if_neg (by tauto)]
    rw [process_packet_eq pkt hlen h17 h18 h8 h16, htemp, hnneg, hch]
    simp
  · intro hin
    simp only [List.mem_cons, List.not_mem_nil, or_false] at hin
    rcases hin with h | h | h | h
    · have hch : decodeChannel (pkt.getD 13 0) =
          some (TempChannel.ch1, false) := by
        rw [h]; decide
      refine ⟨⟨t, decodeUnit (pkt.getD 5 0), TempChannel.ch1, false⟩,
        ?_, rfl, fun hu => decodeUnit_unknown _ hu, fun hc => ?_⟩
      · rw [process_packet_eq pkt hlen h17 h18 h8 h16, htemp, hnneg, hch]
        simp
      · rcases hc with hc | hc <;> rw [h] at hc <;> exact absurd hc (by decide)
    · have hch : decodeChannel (pkt.getD 13 0) =
          some (TempChannel.ch2, false) := by
        rw [h]; decide
      refine ⟨⟨t, decodeUnit (pkt.getD 5 0), TempChannel.ch2, false⟩,
        ?_, rfl, fun hu => decodeUnit_unknown _ hu, fun hc => ?_⟩
      · rw [process_packet_eq pkt hlen h17 h18 h8 h16, htemp, hnneg, hch]
        simp
      · rcases hc with hc | hc <;> rw [h] at hc <;> exact absurd hc (by decide)
    · have hch : decodeChannel (pkt.getD 13 0) =
          some (TempChannel.ch1MinusCh2, true) := by
        rw [h]; decide
      refine ⟨⟨t, decodeUnit (pkt.getD 5 0), TempChannel.ch1MinusCh2, true⟩,
        ?_, rfl, fun hu => decodeUnit_unknown _ hu, fun _ => ⟨rfl, rfl⟩⟩
      rw [process_packet_eq pkt hlen h17 h18 h8 h16, htemp, hnneg, hch]
      simp
    · have hch : decodeChannel (pkt.getD 13 0) =
          some (TempChannel.ch1MinusCh2, true) := by
        rw [h]; decide
      refine ⟨⟨t, decodeUnit (pkt.getD 5 0), TempChannel.ch1MinusCh2, true⟩,
        ?_, rfl, fun hu => decodeUnit_unknown _ hu, fun _ => ⟨rfl, rfl⟩⟩
      rw [process_packet_eq pkt hlen h17 h18 h8 h16, htemp, hnneg, hch]
      simp

/-- Witness for Claim C8 at a concrete frame with field "0000" (value 0),
out-of-range unit digit 9 and channel digit 2 (relative difference). -/
theorem c8_witness :
    parse_temperature (tfield
        [48, 48, 48, 48, 48, 57, 48, 48, 48, 48, 48, 48, 48, 50, 48, 48,
         49, 13, 10]) = some 0 ∧
    ∃ r, (process_packet
        [48, 48, 48, 48, 48, 57, 48, 48, 48, 48, 48, 48, 48, 50, 48, 48,
         49, 13, 10]).1 = some r ∧ r.temp = 0 ∧
      ([48, 48, 48, 48, 48, 57, 48, 48, 48, 48, 48, 48, 48, 50, 48, 48,
         49, 13, 10].getD 5 0 ∉ ([49, 50, 51] : List Nat) →
        r.unit = TempUnit.unknown) ∧
      (([48, 48, 48, 48, 48, 57, 48, 48, 48, 48, 48, 48, 48, 50, 48, 48,
          49, 13, 10].getD 13 0 = 50 ∨
        [48, 48, 48, 48, 48, 57, 48, 48, 48, 48, 48, 48, 48, 50, 48, 48,
          49, 13, 10].getD 13 0 = 51) →
        r.channel = TempChannel.ch1MinusCh2 ∧ r.relative = true) :=
  ⟨by simp [parse_temperature, parseTempGo, tfield, BLANK, NEG],
    (c8_unit_nonfatal_channel_fatal _ (by decide) (by decide) (by decide)
        (by decide) (by decide) 0
        (by simp [parse_temperature, parseTempGo, tfield, BLANK, NEG])).2
      (by decide)⟩

end UT32x
